import Mathlib

/-!
# Verification of the loopy kernel checkers (`loopy/check.py`)

This file gives a shallow embedding of the static sanity checks of the
polyhedral kernel compiler and proves/refutes the frozen specification
claims about them.

The checker module `loopy/check.py` is the authority; the kernel data
model, the symbolic-analysis collaborator (`loopy.symbolic`) and the
integer-set library (`islpy`) are external collaborators whose behaviour
is modelled from the specification where needed (each such definition is
marked `Modelled from the spec:`).  Machine arithmetic does not occur:
all quantities are unbounded Python integers, embedded as `Int`/`Nat`.
-/

namespace Loopy

/-- Modelled from the spec: the iteration-variable tag hierarchy of
`loopy.kernel.data` (not under `src/`): one of GroupAxis(index),
LocalAxis(index), Vector, Unroll, AutoLocal (placeholder, illegal at
check time), Unique(key). -/
inductive Tag
  | groupAxis (axis : Nat)
  | localAxis (axis : Nat)
  | vector
  | unroll
  | autoLocal
  | unique (key : String)
  deriving DecidableEq, Repr

/-- Modelled from the spec: the `is_parallel` capability predicate.
Hardware axes (group/local, including the unresolved AutoLocal
placeholder) and vector lanes execute concurrently; unrolled replicas
and bare unique resource slots do not. -/
def Tag.isParallel : Tag → Bool
  | .groupAxis _ => true
  | .localAxis _ => true
  | .vector => true
  | .unroll => false
  | .autoLocal => true
  | .unique _ => false

/-- Modelled from the spec: `isinstance(tag, GroupIndexTag)`. -/
def Tag.isGroup : Tag → Bool
  | .groupAxis _ => true
  | _ => false

/-- Modelled from the spec: `isinstance(tag, LocalIndexTagBase)` — a
resolved local axis or the AutoLocal placeholder. -/
def Tag.isLocalBase : Tag → Bool
  | .localAxis _ => true
  | .autoLocal => true
  | _ => false

/-- Modelled from the spec: the `unique_key` capability predicate of
`UniqueTag` — the hardware resource slot a tag books, `none` for tags
that book no exclusive slot. -/
def Tag.uniqueKey : Tag → Option String
  | .groupAxis a => some ("g." ++ toString a)
  | .localAxis a => some ("l." ++ toString a)
  | .vector => some "vec"
  | .unique k => some k
  | _ => none

/-- Modelled from the spec: the symbolic expression language of the
collaborator layer (`pymbolic`/`loopy.symbolic`): constants, variables,
sums, products and array subscripts. -/
inductive Expr
  | const (n : Int)
  | var (name : String)
  | add (a b : Expr)
  | mul (a b : Expr)
  | subscript (agg : String) (idx : List Expr)

mutual

/-- Modelled from the spec: free-variable extraction
(`loopy.symbolic.DependencyMapper` / `get_dependencies`), returning the
set of variable names occurring in an expression (the aggregate of a
subscript is itself a variable). -/
def Expr.deps : Expr → Finset String
  | .const _ => ∅
  | .var n => {n}
  | .add a b => a.deps ∪ b.deps
  | .mul a b => a.deps ∪ b.deps
  | .subscript agg idx => insert agg (depsList idx)

/-- Free variables of a list (tuple) of expressions. -/
def depsList : List Expr → Finset String
  | [] => ∅
  | e :: es => e.deps ∪ depsList es

end

/-- A temporary variable: name, optional declared shape, and the
tri-state locality (`is_local`): `some true` = Local, `some false` =
Private, `none` = Undecided. -/
structure TempVar where
  name : String
  shape : Option (List Expr)
  is_local : Option Bool

/-- A kernel argument: name, optional declared shape, and whether it is
a constant-storage argument (`ConstantArg`). -/
structure ArgDecl where
  name : String
  shape : Option (List Expr)
  isConstant : Bool

/-- An instruction: identifier, write target (assignee name plus index
expression tuple), read expression, associated inames and the boostable
flag. -/
structure Instruction where
  id : String
  assigneeName : String
  assigneeIndices : List Expr
  expression : Expr
  inames : List String
  boostable : Bool

/-- Modelled from the spec: the assignee expression of an instruction
(`insn.assignee`), a bare variable for scalar targets and a subscript
otherwise. -/
def Instruction.assignee (insn : Instruction) : Expr :=
  match insn.assigneeIndices with
  | [] => .var insn.assigneeName
  | idx => .subscript insn.assigneeName idx

/-- The associated inames of an instruction as a set
(`kernel.insn_inames(insn)` returns a set of names). -/
def Instruction.inamesSet (insn : Instruction) : Finset String :=
  insn.inames.toFinset

/-- Modelled from the spec: an `islpy` integer set over named set
dimensions and named parameters, embedded as the (finite) collection of
its integer points; a point lists values for `setVars ++ params` in
order. -/
structure Domain where
  setVars : List String
  params : List String
  points : Finset (List Int)

/-- All variable names of a domain (`dom.get_var_dict()`). -/
def Domain.vars (d : Domain) : List String := d.setVars ++ d.params

/-- The environment a domain point induces on the domain's variables. -/
def Domain.envOf (d : Domain) (p : List Int) : String → Int := fun n =>
  ((d.vars.zip p).lookup n).getD 0

/-- Modelled from the spec: the device capability descriptor consumed by
the (excluded, interface-only) advisory pass. -/
structure DeviceInfo where
  maxWorkItemDimensions : Nat
  maxWorkItemSizes : List Int
  maxWorkGroupSize : Int
  localMemIsDedicated : Bool
  maxConstantArgs : Nat
  usableLocalMemSize : Int

/-- Modelled from the spec: the immutable kernel snapshot — domains,
instructions, the iname-to-tag mapping, temporaries, arguments, the
grid-size descriptor, the user-requested local axes, the
`get_inames_domain` accessor, the device descriptor and the local-memory
use figure. -/
structure Kernel where
  domains : List Domain
  instructions : List Instruction
  inameToTag : List (String × Tag)
  temporaryVariables : List TempVar
  args : List ArgDecl
  groupSize : List Expr
  localSize : List Expr
  localSizes : List Nat
  getInamesDomain : List String → Domain
  device : DeviceInfo
  localMemUse : Int

/-- Lookup `kernel.iname_to_tag.get(iname)`. -/
def Kernel.tagOf (k : Kernel) (iname : String) : Option Tag :=
  k.inameToTag.lookup iname

/-- Lookup in `kernel.arg_dict`. -/
def Kernel.argDict (k : Kernel) (n : String) : Option ArgDecl :=
  k.args.find? (fun a => a.name == n)

/-- Lookup in `kernel.temporary_variables`. -/
def Kernel.tempDict (k : Kernel) (n : String) : Option TempVar :=
  k.temporaryVariables.find? (fun t => t.name == n)

/-- The names of all temporary variables (`set(kernel.temporary_variables)`). -/
def Kernel.tempNames (k : Kernel) : Finset String :=
  (k.temporaryVariables.map TempVar.name).toFinset

/-- Modelled from the spec: `kernel.all_inames()` — every iteration
variable declared by some domain. -/
def Kernel.allInames (k : Kernel) : Finset String :=
  k.domains.foldr (fun d s => d.setVars.toFinset ∪ s) ∅

/-- Modelled from the spec: `kernel.all_params()` — every parameter of
some domain. -/
def Kernel.allParams (k : Kernel) : Finset String :=
  k.domains.foldr (fun d s => d.params.toFinset ∪ s) ∅

/-- The structured diagnostics of the checkers; each constructor carries
the data interpolated into the corresponding Python error message. -/
inductive CheckError
  | orphanedAxis (axis : Nat)
  | doubleUse (insnId : String) (tag : Tag)
  | autoLocalTag
  | unusedGroupAxes (insnId : String) (available used : Finset Nat)
  | unusedLocalAxes (insnId : String) (available used : Finset Nat)
  | inactiveAccess (insnId : String)
  | assigneeInactiveAccess (insnId : String)
  | writeRace (insnId : String) (raceInames : Finset String)
  | undecidedLocality (tempName : String)
  | invalidAssignee (insnId : String)
  | dataDependentBounds (domIdx : Nat) (param : String) (parInames : Finset String)
  | subscriptArity (agg : String) (got expected : Nat)
  | outOfBoundsAccess (agg : String) (insnId : String)
  | inameWritten (name : String)
  | paramNotTemp (name : String)
  | paramWrittenInDependentDomain (name : String)
  | invalidWriteDestination (name : String)
  deriving DecidableEq

/-- Run a checker body over a list of items, failing fast on the first
error (the Python `for` loop around a `raise`). -/
def firstFail {α : Type} (l : List α) (f : α → Except CheckError Unit) :
    Except CheckError Unit :=
  match l with
  | [] => .ok ()
  | x :: xs =>
    match f x with
    | .error e => .error e
    | .ok () => firstFail xs f

/-! ## The checkers of `loopy/check.py`, translated -/

/-- Source `check_for_orphaned_user_hardware_axes`: every user-requested local
hardware axis must have some iname whose tag is a `LocalIndexTag` on it. -/
def checkForOrphanedUserHardwareAxes (k : Kernel) : Except CheckError Unit :=
  firstFail k.localSizes fun axis =>
    if (k.inameToTag.map Prod.snd).any (fun t =>
        match t with
        | .localAxis ax => ax == axis
        | _ => false)
    then .ok ()
    else .error (.orphanedAxis axis)

/-- The body of the iname loop of `check_for_double_use_of_hw_axes`:
walk the instruction's inames accumulating the unique keys seen so far,
failing on a repeated key. -/
def doubleUseAux (k : Kernel) (insnId : String) :
    List String → List String → Except CheckError Unit
  | [], _ => .ok ()
  | i :: rest, seen =>
    match k.tagOf i with
    | some t =>
      match t.uniqueKey with
      | some key =>
        if key ∈ seen then .error (.doubleUse insnId t)
        else doubleUseAux k insnId rest (key :: seen)
      | none => doubleUseAux k insnId rest seen
    | none => doubleUseAux k insnId rest seen

/-- Source `check_for_double_use_of_hw_axes`: within one instruction no two
inames may carry unique-keyed tags with the same key. -/
def checkForDoubleUseOfHwAxes (k : Kernel) : Except CheckError Unit :=
  firstFail k.instructions fun insn =>
    doubleUseAux k insn.id insn.inames.dedup []

/-- The body of the iname loop of `check_for_unused_hw_axes_in_insns`:
collect the group- and local-axis indices carried by the tags of the
given inames, failing on an AutoLocal placeholder. -/
def axesUsedAux (k : Kernel) :
    List String → Finset Nat → Finset Nat →
    Except CheckError (Finset Nat × Finset Nat)
  | [], g, l => .ok (g, l)
  | i :: rest, g, l =>
    match k.tagOf i with
    | some (.localAxis ax) => axesUsedAux k rest g (insert ax l)
    | some (.groupAxis ax) => axesUsedAux k rest (insert ax g) l
    | some .autoLocal => .error .autoLocalTag
    | _ => axesUsedAux k rest g l

/-- Source `group_axes`: the full group-axis index set of the grid. -/
def Kernel.groupAxes (k : Kernel) : Finset Nat :=
  Finset.range k.groupSize.length

/-- Source `local_axes`: the full local-axis index set of the grid. -/
def Kernel.localAxes (k : Kernel) : Finset Nat :=
  Finset.range k.localSize.length

/-- Source `check_for_unused_hw_axes_in_insns`, one instruction: boostable
instructions are exempt; otherwise the used group/local axis sets must
equal the grid's full axis sets. -/
def checkForUnusedHwAxesInsn (k : Kernel) (insn : Instruction) :
    Except CheckError Unit :=
  if insn.boostable then .ok ()
  else
    match axesUsedAux k insn.inames.dedup ∅ ∅ with
    | .error e => .error e
    | .ok (groupAxesUsed, localAxesUsed) =>
      if k.groupAxes ≠ groupAxesUsed then
        .error (.unusedGroupAxes insn.id k.groupAxes groupAxesUsed)
      else if k.localAxes ≠ localAxesUsed then
        .error (.unusedLocalAxes insn.id k.localAxes localAxesUsed)
      else .ok ()

/-- Source `check_for_unused_hw_axes_in_insns` over the whole kernel. -/
def checkForUnusedHwAxesInInsns (k : Kernel) : Except CheckError Unit :=
  firstFail k.instructions (checkForUnusedHwAxesInsn k)

/-- Source `check_for_inactive_iname_access`: the inames referenced by the read
expression must be associated with the instruction. -/
def checkForInactiveInameAccess (k : Kernel) : Except CheckError Unit :=
  firstFail k.instructions fun insn =>
    if ¬ (insn.expression.deps ∩ k.allInames ⊆ insn.inamesSet) then
      .error (.inactiveAccess insn.id)
    else .ok ()

/-- The inames referenced by the write-target index expressions of an
instruction (`depmap(insn.get_assignee_indices())` intersected with
`kernel.all_inames()`). -/
def assigneeInamesOf (k : Kernel) (insn : Instruction) : Finset String :=
  depsList insn.assigneeIndices ∩ k.allInames

/-- The raceable set for a write to a global argument: all
parallel-tagged associated inames (lines 136-139 of the source). -/
def argRaceableInames (k : Kernel) (insn : Instruction) : Finset String :=
  insn.inamesSet.filter fun i =>
    ((k.tagOf i).map Tag.isParallel).getD false = true

/-- The raceable set for a write to a Local temporary: all
parallel-tagged associated inames that are not GroupAxis-tagged
(lines 144-148 of the source). -/
def localTempRaceableInames (k : Kernel) (insn : Instruction) : Finset String :=
  insn.inamesSet.filter fun i =>
    (((k.tagOf i).map Tag.isParallel).getD false = true) ∧
    ¬ (((k.tagOf i).map Tag.isGroup).getD false = true)

/-- The raceable set for a write to a Private temporary: all
parallel-tagged associated inames that are neither GroupAxis- nor
LocalAxis-tagged (lines 150-158 of the source). -/
def privateTempRaceableInames (k : Kernel) (insn : Instruction) : Finset String :=
  insn.inamesSet.filter fun i =>
    (((k.tagOf i).map Tag.isParallel).getD false = true) ∧
    ¬ (((k.tagOf i).map Tag.isGroup).getD false = true) ∧
    ¬ (((k.tagOf i).map Tag.isLocalBase).getD false = true)

/-- Source `check_for_write_races`, one instruction: classify the raceable
parallel inames by the storage class of the write target and fail when
one of them is missing from the write index. -/
def checkForWriteRacesInsn (k : Kernel) (insn : Instruction) :
    Except CheckError Unit :=
  let assigneeInames := assigneeInamesOf k insn
  if ¬ (assigneeInames ⊆ insn.inamesSet) then
    .error (.assigneeInactiveAccess insn.id)
  else
    let raceable? : Except CheckError (Finset String) :=
      if (k.argDict insn.assigneeName).isSome then
        .ok (argRaceableInames k insn)
      else
        match k.tempDict insn.assigneeName with
        | some tv =>
          match tv.is_local with
          | some true => .ok (localTempRaceableInames k insn)
          | some false => .ok (privateTempRaceableInames k insn)
          | none => .error (.undecidedLocality tv.name)
        | none => .error (.invalidAssignee insn.id)
    match raceable? with
    | .error e => .error e
    | .ok raceable =>
      let raceInames := raceable \ assigneeInames
      if raceInames.Nonempty then .error (.writeRace insn.id raceInames)
      else .ok ()

/-- Source `check_for_write_races` over the whole kernel. -/
def checkForWriteRaces (k : Kernel) : Except CheckError Unit :=
  firstFail k.instructions (checkForWriteRacesInsn k)

/-- The parallel-tagged inames of a domain. -/
def domainParInames (k : Kernel) (dom : Domain) : Finset String :=
  dom.setVars.toFinset.filter fun i =>
    ((k.tagOf i).map Tag.isParallel).getD false = true

/-- Source `check_for_data_dependent_parallel_bounds`: a domain with
parallel-tagged inames may not have a temporary-variable name among its
parameters. -/
def checkForDataDependentParallelBounds (k : Kernel) : Except CheckError Unit :=
  firstFail k.domains.enum fun di =>
    if domainParInames k di.2 = ∅ then .ok ()
    else
      firstFail di.2.params fun par =>
        if par ∈ k.tempNames then
          .error (.dataDependentBounds di.1 par (domainParInames k di.2))
        else .ok ()

/-! ## Bounds checking (`_AccessCheckMapper` / `check_bounds`) -/

/-- Modelled from the spec: whether an expression is analyzable by the
integer-set library — (quasi-)affine: sums of constants, variables and
constant multiples; a product of two non-constant factors or a nested
subscript is non-linear. -/
def Expr.isAffine : Expr → Bool
  | .const _ => true
  | .var _ => true
  | .add a b => a.isAffine && b.isAffine
  | .mul (.const _) b => b.isAffine
  | .mul a (.const _) => a.isAffine
  | .mul _ _ => false
  | .subscript _ _ => false

/-- Evaluation of an (affine) expression in an environment; only applied
below to affine expressions, for which the subscript case is
unreachable. -/
def evalWith (env : String → Int) : Expr → Int
  | .const n => n
  | .var n => env n
  | .add a b => evalWith env a + evalWith env b
  | .mul a b => evalWith env a * evalWith env b
  | .subscript _ _ => 0

/-- The parameter coordinates of a domain point. -/
def Domain.paramPart (d : Domain) (p : List Int) : List Int :=
  p.drop d.setVars.length

/-- Modelled from the spec: `loopy.symbolic.get_access_range` — the set
of subscript index tuples reachable over the domain (keeping the
parameter coordinates, since the shape may be parametric), abstaining
(`none`, the `isl.Error` of the source) when a subscript entry is not
analyzable. -/
def getAccessRange (d : Domain) (subscript : List Expr) :
    Option (Finset (List Int × List Int)) :=
  if subscript.all Expr.isAffine then
    some (d.points.image fun p =>
      (d.paramPart p, subscript.map (evalWith (d.envOf p))))
  else none

/-- The box `∏ [0, shape[i])` test of `map_subscript`: every access
tuple must lie inside the shape box, the shape being evaluated on the
parameter coordinates of the access. -/
def accessInBox (d : Domain) (range : Finset (List Int × List Int))
    (shape : List Expr) : Prop :=
  ∀ pr ∈ range, ∀ vs ∈ pr.2.zip shape,
    0 ≤ vs.1 ∧ vs.1 < evalWith (d.envOf ((List.replicate d.setVars.length 0) ++ pr.1)) vs.2

instance (d : Domain) (range : Finset (List Int × List Int)) (shape : List Expr) :
    Decidable (accessInBox d range shape) := by
  unfold accessInBox; infer_instance

/-- The declared shape of an array-like entity: arguments shadow
temporaries, `none` when the entity is unknown or carries no shape. -/
def lookupShape (k : Kernel) (n : String) : Option (List Expr) :=
  match k.argDict n with
  | some a => a.shape
  | none =>
    match k.tempDict n with
    | some tv => tv.shape
    | none => none

/-- Source `_AccessCheckMapper.map_subscript`, the part specific to one
subscript node: skip unknown/shapeless aggregates, abstain when the
subscript's or shape's free variables leave the domain, check the
subscript arity against the rank, abstain on non-analyzable subscripts,
and otherwise require the access range to lie in the shape box. -/
def mapSubscript (k : Kernel) (d : Domain) (insnId : String)
    (agg : String) (idx : List Expr) : Except CheckError Unit :=
  match lookupShape k agg with
  | none => .ok ()
  | some shape =>
    let availableVars : Finset String := d.vars.toFinset
    if ¬ (depsList idx ⊆ availableVars ∧ depsList shape ⊆ availableVars) then
      .ok ()
    else if idx.length ≠ shape.length then
      .error (.subscriptArity agg idx.length shape.length)
    else
      match getAccessRange d idx with
      | none => .ok ()
      | some range =>
        if accessInBox d range shape then .ok ()
        else .error (.outOfBoundsAccess agg insnId)

mutual

/-- The `WalkMapper` traversal of `_AccessCheckMapper`: visit every
subexpression, applying the subscript check at each subscript node
(children first, as the walk recurses before the check). -/
def accessCheckExpr (k : Kernel) (d : Domain) (insnId : String) :
    Expr → Except CheckError Unit
  | .const _ => .ok ()
  | .var _ => .ok ()
  | .add a b =>
    match accessCheckExpr k d insnId a with
    | .error e => .error e
    | .ok () => accessCheckExpr k d insnId b
  | .mul a b =>
    match accessCheckExpr k d insnId a with
    | .error e => .error e
    | .ok () => accessCheckExpr k d insnId b
  | .subscript agg idx =>
    match accessCheckList k d insnId idx with
    | .error e => .error e
    | .ok () => mapSubscript k d insnId agg idx

/-- The traversal over a tuple of index expressions. -/
def accessCheckList (k : Kernel) (d : Domain) (insnId : String) :
    List Expr → Except CheckError Unit
  | [] => .ok ()
  | e :: es =>
    match accessCheckExpr k d insnId e with
    | .error err => .error err
    | .ok () => accessCheckList k d insnId es

end

/-- Source `check_bounds`, one instruction: skip instructions whose governing
domain has a data-dependent (temporary-variable) parameter, otherwise
walk the read expression and then the assignee. -/
def checkBoundsInsn (k : Kernel) (insn : Instruction) : Except CheckError Unit :=
  let dom := k.getInamesDomain insn.inames
  if (dom.params.toFinset ∩ k.tempNames).Nonempty then .ok ()
  else
    match accessCheckExpr k dom insn.id insn.expression with
    | .error e => .error e
    | .ok () => accessCheckExpr k dom insn.id insn.assignee

/-- Source `check_bounds` over the whole kernel. -/
def checkBounds (k : Kernel) : Except CheckError Unit :=
  firstFail k.instructions (checkBoundsInsn k)

/-- Source `check_write_destinations`: the write-target name may not be an
iname; a domain-parameter target must be a temporary and must not
parametrize its own governing domain; and the target must resolve to a
temporary, an argument or a domain parameter. -/
def checkWriteDestinationsInsn (k : Kernel) (insn : Instruction) :
    Except CheckError Unit :=
  let wvar := insn.assigneeName
  if wvar ∈ k.allInames then .error (.inameWritten wvar)
  else
    let insnParams := (k.getInamesDomain insn.inames).params.toFinset
    if wvar ∈ k.allParams ∧ (k.tempDict wvar).isNone = true then
      .error (.paramNotTemp wvar)
    else if wvar ∈ k.allParams ∧ wvar ∈ insnParams then
      .error (.paramWrittenInDependentDomain wvar)
    else if (k.tempDict wvar).isNone = true ∧ (k.argDict wvar).isNone = true ∧
        wvar ∉ k.allParams then
      .error (.invalidWriteDestination wvar)
    else .ok ()

/-- Source `check_write_destinations` over the whole kernel. -/
def checkWriteDestinations (k : Kernel) : Except CheckError Unit :=
  firstFail k.instructions (checkWriteDestinationsInsn k)

/-- Source `run_automatic_checks`: the orchestrator, running the checkers in
the source's fixed order and propagating the first failure (the
snapshot dump of the `except` block is a diagnostic side channel and
carries no data). -/
def runAutomaticChecks (k : Kernel) : Except CheckError Unit :=
  match checkForOrphanedUserHardwareAxes k with
  | .error e => .error e
  | .ok () =>
  match checkForDoubleUseOfHwAxes k with
  | .error e => .error e
  | .ok () =>
  match checkForUnusedHwAxesInInsns k with
  | .error e => .error e
  | .ok () =>
  match checkForInactiveInameAccess k with
  | .error e => .error e
  | .ok () =>
  match checkForWriteRaces k with
  | .error e => .error e
  | .ok () =>
  match checkForDataDependentParallelBounds k with
  | .error e => .error e
  | .ok () =>
  match checkBounds k with
  | .error e => .error e
  | .ok () => checkWriteDestinations k

/-! ## The user-invoked advisory pass (`get_problems`) -/

/-- Modelled from the spec: `pymbolic.evaluate` under a concrete
parameter binding, signalling the unknown-variable condition with the
name of the missing variable. -/
def evaluate (parameters : List (String × Int)) : Expr → Except String Int
  | .const n => .ok n
  | .var n =>
    match parameters.lookup n with
    | some v => .ok v
    | none => .error n
  | .add a b =>
    match evaluate parameters a with
    | .error n => .error n
    | .ok va =>
      match evaluate parameters b with
      | .error n => .error n
      | .ok vb => .ok (va + vb)
  | .mul a b =>
    match evaluate parameters a with
    | .error n => .error n
    | .ok va =>
      match evaluate parameters b with
      | .error n => .error n
      | .ok vb => .ok (va * vb)
  | .subscript agg _ => .error agg

/-- Evaluation of a tuple of expressions, failing at the first unknown
variable. -/
def evaluateList (parameters : List (String × Int)) :
    List Expr → Except String (List Int)
  | [] => .ok []
  | e :: es =>
    match evaluate parameters e with
    | .error n => .error n
    | .ok v =>
      match evaluateList parameters es with
      | .error n => .error n
      | .ok vs => .ok (v :: vs)

/-- Source `get_problems`: the device-conformance advisory; returns
`(max_severity, list of (severity, message))`. -/
def getProblems (k : Kernel) (parameters : List (String × Int)) :
    Nat × List (Nat × String) :=
  let msgsA : List (Nat × String) :=
    if max k.groupSize.length k.localSize.length >
        k.device.maxWorkItemDimensions then
      [(5, "too many work item dimensions")]
    else []
  let msgsB : List (Nat × String) :=
    match evaluateList parameters k.groupSize with
    | .error n =>
      [(1, "could not check axis bounds because no value for variable " ++
        n ++ " was passed to check_kernels()")]
    | .ok _ =>
      match evaluateList parameters k.localSize with
      | .error n =>
        [(1, "could not check axis bounds because no value for variable " ++
          n ++ " was passed to check_kernels()")]
      | .ok llens =>
        (llens.enum.filterMap fun il =>
          if il.2 > k.device.maxWorkItemSizes.getD il.1 0 then
            some (5, "group axis " ++ toString il.1 ++ " too big")
          else none) ++
        (if llens.foldl (· * ·) 1 > k.device.maxWorkGroupSize then
          [(5, "work group too big")]
        else [])
  let msgsC : List (Nat × String) :=
    if k.localMemUse > k.device.usableLocalMemSize then
      if k.device.localMemIsDedicated then
        [(5, "using too much local memory")]
      else
        [(4, "using more local memory than available--possibly OK due to cache nature")]
    else []
  let constArgCount := (k.args.filter ArgDecl.isConstant).length
  let msgsD : List (Nat × String) :=
    if constArgCount > k.device.maxConstantArgs then
      [(5, "too many constant arguments")]
    else []
  let msgs := msgsA ++ msgsB ++ msgsC ++ msgsD
  let maxSeverity := msgs.foldl (fun m p => max p.1 m) 0
  (maxSeverity, msgs)

/-! ## The implemented-domain equivalence checker
(`check_implemented_domains`)

The polyhedral sets this checker manipulates live, for one instruction,
in one common aligned space (the source calls `align_two` before every
binary operation); the space is embedded as an ordered list of set
dimensions and parameters and an isl set as the finite collection of its
integer points over that space.  `coalesce` is a semantics-preserving
canonicalization and is the identity on the point-set semantics;
`sample_point` deterministically picks the least point of a non-empty
set (void on the empty set). -/

namespace ImplDom

/-- A point of the aligned space: one integer per variable. -/
abbrev Pt := List Int

/-- Modelled from the spec: an isl set over the aligned space, as its
finite set of integer points. -/
abbrev ISet := Finset Pt

/-- The instruction data `check_implemented_domains` consumes: the id,
the associated inames, and the governing domain
(`kernel.get_inames_domain(kernel.insn_inames(insn))`) as a set over the
aligned space. -/
structure DInsn where
  id : String
  inames : List String
  domain : ISet

/-- Modelled from the spec: the kernel snapshot as seen by the
implemented-domain checker — the aligned space (set-dimension names and
parameter names, in order), the assumptions (a parameter constraint set,
as a predicate on points of the aligned space) and the instructions. -/
structure DKernel where
  varNames : List String
  paramNames : List String
  assumptions : Pt → Bool
  instructions : List DInsn

/-- Lookup in `kernel.id_to_insn`. -/
def idToInsn (k : DKernel) (i : String) : Option DInsn :=
  k.instructions.find? (fun insn => insn.id == i)

/-- The projection mask of
`project_out_except(insn_inames, [dim_type.set])`: keep the set
dimensions that are associated inames of the instruction and keep every
parameter. -/
def projMask (k : DKernel) (insn : DInsn) : List Bool :=
  k.varNames.map (fun v => insn.inames.contains v) ++
    k.paramNames.map (fun _ => true)

/-- Project one point onto the kept coordinates. -/
def projectPoint (mask : List Bool) (p : Pt) : Pt :=
  (mask.zip p).filterMap fun bp => if bp.1 then some bp.2 else none

/-- Projection of a set onto the kept coordinates. -/
def project (mask : List Bool) (s : ISet) : ISet :=
  s.image (projectPoint mask)

/-- Source `coalesce`: a semantics-preserving canonicalization — the identity
on the point-set semantics. -/
def coalesce (s : ISet) : ISet := s

/-- Source `sample_point`: a representative point of a non-empty set, void
(`none`) on the empty set. -/
def samplePoint (s : ISet) : Option Pt :=
  if h : s.Nonempty then some (s.min' h) else none

/-- The names of the kept coordinates, in space order (the instruction's
inames and the domain parameters). -/
def keptNames (k : DKernel) (insn : DInsn) : List String :=
  ((k.varNames ++ k.paramNames).zip (projMask k insn)).filterMap fun nb =>
    if nb.2 then some nb.1 else none

/-- Source `insn_impl_domain = idomains[0] | idomains[1] | ...`. -/
def unionPieces : List ISet → ISet
  | [] => ∅
  | d :: rest => rest.foldl (· ∪ ·) d

/-- Source `implemented' = project(union(pieces) ∩ assumptions, insn inames)`. -/
def implementedOf (k : DKernel) (insn : DInsn) (pieces : List ISet) : ISet :=
  project (projMask k insn)
    ((unionPieces pieces).filter fun p => k.assumptions p = true)

/-- Source `desired = project(domain(insn) ∩ assumptions, insn inames)`. -/
def desiredOf (k : DKernel) (insn : DInsn) : ISet :=
  project (projMask k insn)
    (insn.domain.filter fun p => k.assumptions p = true)

/-- Format a sample point as `v1=n1, v2=n2, ...`. -/
def formatPoint (names : List String) (pt : Pt) : String :=
  String.intercalate ", " ((names.zip pt).map fun nv =>
    nv.1 ++ "=" ++ toString nv.2)

/-- The diagnostic lines: for each of the two set differences, coalesce,
extract a sample point, and skip the side whose difference is empty
(void sample point). -/
def sampleLines (k : DKernel) (insn : DInsn) (iMinusD dMinusI : ISet) :
    List String :=
  [("implemented, but not desired", iMinusD),
   ("desired, but not implemented", dMinusI)].filterMap fun ks =>
    match samplePoint (coalesce ks.2) with
    | none => none
    | some pt =>
      some ("sample point " ++ ks.1 ++ ": " ++ formatPoint (keptNames k insn) pt)

/-- The structured diagnostic of the implemented-domain checker. -/
inductive DomainError
  | mismatch (insnId : String) (lines : List String)
  | unknownInsn (insnId : String)
  deriving DecidableEq

/-- Source `check_implemented_domains`, one instruction record. -/
def checkImplInsn (k : DKernel) (insnId : String) (pieces : List ISet) :
    Except DomainError Unit :=
  match idToInsn k insnId with
  | none => .error (.unknownInsn insnId)
  | some insn =>
    if implementedOf k insn pieces = desiredOf k insn then .ok ()
    else
      .error (.mismatch insnId (sampleLines k insn
        (implementedOf k insn pieces \ desiredOf k insn)
        (desiredOf k insn \ implementedOf k insn pieces)))

/-- Source `check_implemented_domains` over all implemented-domain records;
returns `True` on success (to placate the assert at the call site). -/
def checkImplementedDomains (k : DKernel)
    (implementedDomains : List (String × List ISet)) :
    Except DomainError Bool :=
  match implementedDomains with
  | [] => .ok true
  | (i, pieces) :: rest =>
    match checkImplInsn k i pieces with
    | .error e => .error e
    | .ok () => checkImplementedDomains k rest

end ImplDom

/-! ## Statement helpers and concrete scenario kernels -/

deriving instance DecidableEq for Except

/-- The group-axis indices carried by the tags of a list of inames (the
accumulation of lines 52-55 of the source). -/
def groupAxesUsed (k : Kernel) (insn : Instruction) : Finset Nat :=
  (insn.inames.dedup.filterMap fun i =>
    match k.tagOf i with
    | some (.groupAxis ax) => some ax
    | _ => none).toFinset

/-- The local-axis indices carried by the tags of a list of inames (the
accumulation of lines 52-55 of the source). -/
def localAxesUsed (k : Kernel) (insn : Instruction) : Finset Nat :=
  (insn.inames.dedup.filterMap fun i =>
    match k.tagOf i with
    | some (.localAxis ax) => some ax
    | _ => none).toFinset

/-- The unique keys carried by the tags of a list of inames, in order. -/
def keyList (k : Kernel) (inames : List String) : List String :=
  inames.filterMap fun i => (k.tagOf i).bind Tag.uniqueKey

/-- A generous device descriptor for the scenario kernels. -/
def dummyDevice : DeviceInfo :=
  ⟨3, [1024, 1024, 64], 1024, true, 8, 65536⟩

/-- The domain of the write-race scenario: inames `l` and `p`. -/
def domLP : Domain := ⟨["l", "p"], [], ∅⟩

/-- The write-race scenario instruction with target indexed only by `p`. -/
def insnNarrow : Instruction :=
  ⟨"insn", "T", [.var "p"], .const 0, ["l", "p"], false⟩

/-- The write-race scenario instruction with target indexed by `p` and `l`. -/
def insnWide : Instruction :=
  ⟨"insn", "T", [.var "p", .var "l"], .const 0, ["l", "p"], false⟩

/-- The write-race scenario kernel: `l` is LocalAxis(0)-tagged, `p` is
the parallel (LocalAxis(1)-tagged) index of the temporary `T`. -/
def raceKernel (tv : TempVar) (insn : Instruction) : Kernel :=
  { domains := [domLP]
    instructions := [insn]
    inameToTag := [("l", .localAxis 0), ("p", .localAxis 1)]
    temporaryVariables := [tv]
    args := []
    groupSize := []
    localSize := [.const 16, .const 16]
    localSizes := []
    getInamesDomain := fun _ => domLP
    device := dummyDevice
    localMemUse := 0 }

/-- The Private temporary `T` of the write-race scenario. -/
def tvPrivate : TempVar := ⟨"T", none, some false⟩

/-- The Local temporary `T` of the write-race scenario. -/
def tvLocal : TempVar := ⟨"T", none, some true⟩

/-- A kernel with no instructions whose only defect is an orphaned
user-requested local hardware axis 0. -/
def orphanKernel : Kernel :=
  { domains := []
    instructions := []
    inameToTag := []
    temporaryVariables := []
    args := []
    groupSize := []
    localSize := []
    localSizes := [0]
    getInamesDomain := fun _ => ⟨[], [], ∅⟩
    device := dummyDevice
    localMemUse := 0 }

/-- A kernel failing both the double-use check (both inames are
LocalAxis(0)-tagged) and the axis-coverage check (local axis 1 unused). -/
def dupAxisKernel : Kernel :=
  { domains := [⟨["i1", "i2"], [], ∅⟩]
    instructions := [⟨"insn", "T", [], .const 0, ["i1", "i2"], false⟩]
    inameToTag := [("i1", .localAxis 0), ("i2", .localAxis 0)]
    temporaryVariables := [⟨"T", none, some false⟩]
    args := []
    groupSize := []
    localSize := [.const 4, .const 4]
    localSizes := []
    getInamesDomain := fun _ => ⟨["i1", "i2"], [], ∅⟩
    device := dummyDevice
    localMemUse := 0 }

/-- A kernel whose only non-boostable instruction covers the full group
and local axis sets through its GroupAxis(0)/LocalAxis(0) tags but also
carries an AutoLocal placeholder tag on iname `a`. -/
def autoLocalKernel : Kernel :=
  { domains := [⟨["g", "lx", "a"], [], ∅⟩]
    instructions := [⟨"insn", "T", [], .const 0, ["g", "lx", "a"], false⟩]
    inameToTag := [("g", .groupAxis 0), ("lx", .localAxis 0), ("a", .autoLocal)]
    temporaryVariables := [⟨"T", none, some false⟩]
    args := []
    groupSize := [.const 8]
    localSize := [.const 8]
    localSizes := []
    getInamesDomain := fun _ => ⟨["g", "lx", "a"], [], ∅⟩
    device := dummyDevice
    localMemUse := 0 }

/-- The AutoLocal-free variant of `autoLocalKernel`: full axis coverage,
no placeholder tag. -/
def coveredKernel : Kernel :=
  { domains := [⟨["g", "lx"], [], ∅⟩]
    instructions := [⟨"insn", "T", [], .const 0, ["g", "lx"], false⟩]
    inameToTag := [("g", .groupAxis 0), ("lx", .localAxis 0)]
    temporaryVariables := [⟨"T", none, some false⟩]
    args := []
    groupSize := [.const 8]
    localSize := [.const 8]
    localSizes := []
    getInamesDomain := fun _ => ⟨["g", "lx"], [], ∅⟩
    device := dummyDevice
    localMemUse := 0 }

/-- A kernel in which the bounds checker encounters `A[i, t]`: the rank
of `A` is 1 but the subscript has arity 2, and the subscript references
`t`, a variable outside the instruction's governing domain. -/
def arityKernel : Kernel :=
  { domains := [⟨["i"], [], ∅⟩]
    instructions := [⟨"insn", "B", [], .subscript "A" [.var "i", .var "t"],
      ["i"], false⟩]
    inameToTag := []
    temporaryVariables := []
    args := [⟨"A", some [.const 10], false⟩, ⟨"B", none, false⟩]
    groupSize := []
    localSize := []
    localSizes := []
    getInamesDomain := fun _ => ⟨["i"], [], ∅⟩
    device := dummyDevice
    localMemUse := 0 }

/-- A domain over `i`, `j` containing the point `(20, 30)`. -/
def domIJ : Domain := ⟨["i", "j"], [], {[20, 30]}⟩

/-- A kernel in which instruction `insn` reads `A[i*j]` — a non-linear
subscript whose value at the domain point `(20, 30)` would be far out of
the declared extent 100. -/
def nonlinearKernel : Kernel :=
  { domains := [domIJ]
    instructions := [⟨"insn", "B", [], .subscript "A" [.mul (.var "i") (.var "j")],
      ["i", "j"], false⟩]
    inameToTag := []
    temporaryVariables := []
    args := [⟨"A", some [.const 100], false⟩, ⟨"B", none, false⟩]
    groupSize := []
    localSize := []
    localSizes := []
    getInamesDomain := fun _ => domIJ
    device := dummyDevice
    localMemUse := 0 }

/-- A kernel whose instruction's governing domain has the
temporary-variable name `n` among its parameters, so the bounds checker
skips the instruction although it reads `A[i]` with `A` of extent 1 over
domain points up to 9. -/
def skipKernel : Kernel :=
  { domains := [⟨["i"], ["n"], (Finset.Icc (0:Int) 9).image (fun v => [v, 0])⟩]
    instructions := [⟨"insn", "B", [], .subscript "A" [.var "i"], ["i"], false⟩]
    inameToTag := []
    temporaryVariables := [⟨"n", none, some false⟩]
    args := [⟨"A", some [.const 1], false⟩, ⟨"B", none, false⟩]
    groupSize := []
    localSize := []
    localSizes := []
    getInamesDomain := fun _ => ⟨["i"], ["n"], (Finset.Icc (0:Int) 9).image (fun v => [v, 0])⟩
    device := dummyDevice
    localMemUse := 0 }

/-- A kernel with a parallel-tagged iname `i` whose domain has the
temporary-variable name `n` as a parameter. -/
def ddBadKernel : Kernel :=
  { domains := [⟨["i"], ["n"], ∅⟩]
    instructions := []
    inameToTag := [("i", .groupAxis 0)]
    temporaryVariables := [⟨"n", none, some false⟩]
    args := []
    groupSize := [.const 8]
    localSize := []
    localSizes := []
    getInamesDomain := fun _ => ⟨["i"], ["n"], ∅⟩
    device := dummyDevice
    localMemUse := 0 }

/-- The same domain with a compile-time-constant parameter: `n` is not a
temporary variable. -/
def ddOkKernel : Kernel :=
  { domains := [⟨["i"], ["n"], ∅⟩]
    instructions := []
    inameToTag := [("i", .groupAxis 0)]
    temporaryVariables := []
    args := []
    groupSize := [.const 8]
    localSize := []
    localSizes := []
    getInamesDomain := fun _ => ⟨["i"], ["n"], ∅⟩
    device := dummyDevice
    localMemUse := 0 }

/-- A kernel (and device) violating none of the advisory limits, so the
advisory pass returns no messages at all. -/
def quietKernel : Kernel :=
  { domains := []
    instructions := []
    inameToTag := []
    temporaryVariables := []
    args := []
    groupSize := []
    localSize := []
    localSizes := []
    getInamesDomain := fun _ => ⟨[], [], ∅⟩
    device := dummyDevice
    localMemUse := 0 }

namespace ImplDom

/-- The kernel of the domain-equivalence scenario: one set dimension
`i`, no parameters, trivial assumptions, one instruction `insn` whose
desired domain is `0 ≤ i < 10`. -/
def exK : DKernel :=
  { varNames := ["i"]
    paramNames := []
    assumptions := fun _ => true
    instructions := [⟨"insn", ["i"], (Finset.Icc (0:Int) 9).image (fun n => [n])⟩] }

/-- The implemented piece `0 ≤ i < 9`. -/
def piece9 : ISet := (Finset.Icc (0:Int) 8).image (fun n => [n])

/-- The implemented piece `0 ≤ i < 10`. -/
def piece10 : ISet := (Finset.Icc (0:Int) 9).image (fun n => [n])

/-- The redundant implemented piece `i = 3`. -/
def piece3 : ISet := {[3]}

end ImplDom

/-! ## General lemmas about the fail-fast loop -/

theorem firstFail_ok_iff {α : Type} (l : List α) (f : α → Except CheckError Unit) :
    firstFail l f = .ok () ↔ ∀ x ∈ l, f x = .ok () := by
  induction l with
  | nil => simp [firstFail]
  | cons x xs ih =>
    cases h : f x with
    | error e => simp [firstFail, h]
    | ok u => cases u; simp [firstFail, h, ih]

theorem firstFail_error_mem {α : Type} (l : List α)
    (f : α → Except CheckError Unit) (e : CheckError)
    (h : firstFail l f = .error e) : ∃ x ∈ l, f x = .error e := by
  induction l with
  | nil => simp [firstFail] at h
  | cons x xs ih =>
    cases hx : f x with
    | error e2 =>
      rw [firstFail] at h
      simp only [hx] at h
      exact ⟨x, List.mem_cons_self x xs, by rw [hx, h]⟩
    | ok u =>
      cases u
      rw [firstFail] at h
      simp only [hx] at h
      obtain ⟨y, hy, hfy⟩ := ih h
      exact ⟨y, List.mem_cons_of_mem x hy, hfy⟩

/-! ## Claim C1: write-race classification -/

/-- C1: for every instruction whose write-target index inames are a
subset of its associated inames, `check_for_write_races` classifies the
raceable set by the target's storage class — global argument: all
parallel-tagged associated inames; Local temporary: all parallel except
GroupAxis-tagged; Private temporary: all parallel except GroupAxis- and
LocalAxis-tagged; Undecided locality: usage error — and raises
`WriteRaceConditionError` iff the raceable set minus the inames
referenced in the write index is non-empty, naming that set. -/
theorem check_for_write_races_classifies (k : Kernel) (insn : Instruction)
    (h : assigneeInamesOf k insn ⊆ insn.inamesSet) :
    checkForWriteRacesInsn k insn =
      match k.argDict insn.assigneeName, k.tempDict insn.assigneeName with
      | some _, _ =>
        if (argRaceableInames k insn \ assigneeInamesOf k insn).Nonempty then
          .error (.writeRace insn.id
            (argRaceableInames k insn \ assigneeInamesOf k insn))
        else .ok ()
      | none, some tv =>
        match tv.is_local with
        | some true =>
          if (localTempRaceableInames k insn \ assigneeInamesOf k insn).Nonempty then
            .error (.writeRace insn.id
              (localTempRaceableInames k insn \ assigneeInamesOf k insn))
          else .ok ()
        | some false =>
          if (privateTempRaceableInames k insn \ assigneeInamesOf k insn).Nonempty then
            .error (.writeRace insn.id
              (privateTempRaceableInames k insn \ assigneeInamesOf k insn))
          else .ok ()
        | none => .error (.undecidedLocality tv.name)
      | none, none => .error (.invalidAssignee insn.id) := by
  cases ha : k.argDict insn.assigneeName with
  | some a => simp [checkForWriteRacesInsn, ha, h]
  | none =>
    cases ht : k.tempDict insn.assigneeName with
    | none => simp [checkForWriteRacesInsn, ha, ht, h]
    | some tv =>
      cases hl : tv.is_local with
      | none => simp [checkForWriteRacesInsn, ha, ht, hl, h]
      | some b => cases b <;> simp [checkForWriteRacesInsn, ha, ht, hl, h]

/-- Witness for C1: the classification theorem applied to the concrete
Local-temporary race kernel yields the write-race error naming `{l}`. -/
theorem check_for_write_races_classifies_witness :
    checkForWriteRacesInsn (raceKernel tvLocal insnNarrow) insnNarrow =
      .error (.writeRace "insn" {"l"}) :=
  (check_for_write_races_classifies (raceKernel tvLocal insnNarrow) insnNarrow
    (by decide)).trans (by decide)

/-! ## Claim C2: the write-race scenario (corrected) -/

/-- Counterexample to C2 as stated: for a Private temporary written at
index `p` with associated inames a local-axis-tagged `l` and a parallel
iname `p`, `check_for_write_races` succeeds (the claim asserts it fails
naming `{l}`): for a Private temporary, LocalAxis-tagged inames are
excluded from the raceable set. -/
theorem write_race_private_scenario_passes :
    checkForWriteRaces (raceKernel tvPrivate insnNarrow) = .ok () ∧
    checkForWriteRaces (raceKernel tvPrivate insnWide) = .ok () := by
  decide

/-- C2 amended: for a kernel containing an instruction that writes a
*Local* temporary at index `p`, whose associated inames are a
local-axis-tagged `l` and the parallel iname `p`, with the write target
indexed only by `p`, `check_for_write_races` fails with the write-race
error naming `{l}`; widening the write index to also reference `l`
makes the same check succeed. -/
theorem write_race_local_scenario :
    checkForWriteRaces (raceKernel tvLocal insnNarrow) =
      .error (.writeRace "insn" {"l"}) ∧
    checkForWriteRaces (raceKernel tvLocal insnWide) = .ok () := by
  decide

/-! ## Claim C4: the orchestrator (corrected) -/

/-- Counterexample to C4 as stated: `run_automatic_checks` does not run
exactly the seven checkers of §4.1-§4.7 in the claimed order.  First, on
a kernel whose only defect is an orphaned user-requested local hardware
axis, all seven claimed checkers succeed yet the orchestrator fails (it
also runs `check_for_orphaned_user_hardware_axes`, first).  Second, on a
kernel failing both axis coverage and double-use, the propagated failure
is the double-use error, although under the claimed order (axis coverage
before double-use, short-circuiting) it would be the axis-coverage
error. -/
theorem run_automatic_checks_not_seven :
    runAutomaticChecks orphanKernel = .error (.orphanedAxis 0) ∧
    checkForUnusedHwAxesInInsns orphanKernel = .ok () ∧
    checkForDoubleUseOfHwAxes orphanKernel = .ok () ∧
    checkForInactiveInameAccess orphanKernel = .ok () ∧
    checkForWriteRaces orphanKernel = .ok () ∧
    checkForDataDependentParallelBounds orphanKernel = .ok () ∧
    checkBounds orphanKernel = .ok () ∧
    checkWriteDestinations orphanKernel = .ok () ∧
    runAutomaticChecks dupAxisKernel = .error (.doubleUse "insn" (.localAxis 0)) ∧
    checkForUnusedHwAxesInInsns dupAxisKernel =
      .error (.unusedLocalAxes "insn" (Finset.range 2) {0}) := by
  decide

/-- C4 amended: `run_automatic_checks` executes the eight checkers —
orphaned user hardware axes, double use of hardware axes, axis coverage,
inactive iname access, write races, data-dependent parallel bounds,
bounds, write destinations — in that fixed order over one snapshot,
short-circuiting on the first failure (no later checker influences the
result) and propagating that failure to the caller (the snapshot dump of
the `except` block is a diagnostic side channel). -/
theorem run_automatic_checks_order (k : Kernel) :
    (runAutomaticChecks k = .ok () ↔
      checkForOrphanedUserHardwareAxes k = .ok () ∧
      checkForDoubleUseOfHwAxes k = .ok () ∧
      checkForUnusedHwAxesInInsns k = .ok () ∧
      checkForInactiveInameAccess k = .ok () ∧
      checkForWriteRaces k = .ok () ∧
      checkForDataDependentParallelBounds k = .ok () ∧
      checkBounds k = .ok () ∧
      checkWriteDestinations k = .ok ()) ∧
    (∀ e, checkForOrphanedUserHardwareAxes k = .error e →
      runAutomaticChecks k = .error e) ∧
    (∀ e, checkForOrphanedUserHardwareAxes k = .ok () →
      checkForDoubleUseOfHwAxes k = .error e →
      runAutomaticChecks k = .error e) ∧
    (∀ e, checkForOrphanedUserHardwareAxes k = .ok () →
      checkForDoubleUseOfHwAxes k = .ok () →
      checkForUnusedHwAxesInInsns k = .error e →
      runAutomaticChecks k = .error e) ∧
    (∀ e, checkForOrphanedUserHardwareAxes k = .ok () →
      checkForDoubleUseOfHwAxes k = .ok () →
      checkForUnusedHwAxesInInsns k = .ok () →
      checkForInactiveInameAccess k = .error e →
      runAutomaticChecks k = .error e) ∧
    (∀ e, checkForOrphanedUserHardwareAxes k = .ok () →
      checkForDoubleUseOfHwAxes k = .ok () →
      checkForUnusedHwAxesInInsns k = .ok () →
      checkForInactiveInameAccess k = .ok () →
      checkForWriteRaces k = .error e →
      runAutomaticChecks k = .error e) ∧
    (∀ e, checkForOrphanedUserHardwareAxes k = .ok () →
      checkForDoubleUseOfHwAxes k = .ok () →
      checkForUnusedHwAxesInInsns k = .ok () →
      checkForInactiveInameAccess k = .ok () →
      checkForWriteRaces k = .ok () →
      checkForDataDependentParallelBounds k = .error e →
      runAutomaticChecks k = .error e) ∧
    (∀ e, checkForOrphanedUserHardwareAxes k = .ok () →
      checkForDoubleUseOfHwAxes k = .ok () →
      checkForUnusedHwAxesInInsns k = .ok () →
      checkForInactiveInameAccess k = .ok () →
      checkForWriteRaces k = .ok () →
      checkForDataDependentParallelBounds k = .ok () →
      checkBounds k = .error e →
      runAutomaticChecks k = .error e) ∧
    (∀ e, checkForOrphanedUserHardwareAxes k = .ok () →
      checkForDoubleUseOfHwAxes k = .ok () →
      checkForUnusedHwAxesInInsns k = .ok () →
      checkForInactiveInameAccess k = .ok () →
      checkForWriteRaces k = .ok () →
      checkForDataDependentParallelBounds k = .ok () →
      checkBounds k = .ok () →
      checkWriteDestinations k = .error e →
      runAutomaticChecks k = .error e) := by
  refine ⟨?_, ?_, ?_, ?_, ?_, ?_, ?_, ?_, ?_⟩
  · unfold runAutomaticChecks
    repeat' split
    all_goals simp_all
  · intro e h1; simp [runAutomaticChecks, h1]
  · intro e h1 h2; simp [runAutomaticChecks, h1, h2]
  · intro e h1 h2 h3; simp [runAutomaticChecks, h1, h2, h3]
  · intro e h1 h2 h3 h4; simp [runAutomaticChecks, h1, h2, h3, h4]
  · intro e h1 h2 h3 h4 h5; simp [runAutomaticChecks, h1, h2, h3, h4, h5]
  · intro e h1 h2 h3 h4 h5 h6; simp [runAutomaticChecks, h1, h2, h3, h4, h5, h6]
  · intro e h1 h2 h3 h4 h5 h6 h7
    simp [runAutomaticChecks, h1, h2, h3, h4, h5, h6, h7]
  · intro e h1 h2 h3 h4 h5 h6 h7 h8
    simp [runAutomaticChecks, h1, h2, h3, h4, h5, h6, h7, h8]

/-- Witness for the amended C4: applied to the orphan kernel, the first
propagation clause yields the orphaned-axis failure. -/
theorem run_automatic_checks_order_witness :
    runAutomaticChecks orphanKernel = .error (.orphanedAxis 0) :=
  (run_automatic_checks_order orphanKernel).2.1 (.orphanedAxis 0) (by decide)

/-! ## Claim C5: axis coverage (corrected) -/

theorem axesUsedAux_eq (k : Kernel) (inames : List String)
    (hauto : ∀ i ∈ inames, k.tagOf i ≠ some .autoLocal) :
    ∀ g l : Finset Nat,
      axesUsedAux k inames g l =
        .ok (g ∪ (inames.filterMap fun i =>
              match k.tagOf i with
              | some (.groupAxis ax) => some ax
              | _ => none).toFinset,
            l ∪ (inames.filterMap fun i =>
              match k.tagOf i with
              | some (.localAxis ax) => some ax
              | _ => none).toFinset) := by
  induction inames with
  | nil => intro g l; simp [axesUsedAux]
  | cons i rest ih =>
    intro g l
    have hi : k.tagOf i ≠ some .autoLocal := hauto i (List.mem_cons_self i rest)
    have hrest := ih (fun j hj => hauto j (List.mem_cons_of_mem i hj))
    cases ht : k.tagOf i with
    | none => simp [axesUsedAux, ht, hrest]
    | some t =>
      cases t with
      | groupAxis ax =>
        simp [axesUsedAux, ht, hrest, List.filterMap_cons,
          Finset.union_insert, Finset.insert_union]
      | localAxis ax =>
        simp [axesUsedAux, ht, hrest, List.filterMap_cons,
          Finset.union_insert, Finset.insert_union]
      | autoLocal => exact absurd ht hi
      | vector => simp [axesUsedAux, ht, hrest]
      | unroll => simp [axesUsedAux, ht, hrest]
      | unique key => simp [axesUsedAux, ht, hrest]

theorem checkForUnusedHwAxesInsn_spec (k : Kernel) (insn : Instruction)
    (hb : insn.boostable = false)
    (hauto : ∀ i ∈ insn.inames, k.tagOf i ≠ some .autoLocal) :
    checkForUnusedHwAxesInsn k insn =
      if k.groupAxes ≠ groupAxesUsed k insn then
        .error (.unusedGroupAxes insn.id k.groupAxes (groupAxesUsed k insn))
      else if k.localAxes ≠ localAxesUsed k insn then
        .error (.unusedLocalAxes insn.id k.localAxes (localAxesUsed k insn))
      else .ok () := by
  have haux := axesUsedAux_eq k insn.inames.dedup
    (fun i hi => hauto i (List.mem_dedup.mp hi)) ∅ ∅
  simp only [checkForUnusedHwAxesInsn, hb, Bool.false_eq_true, if_false, haux,
    Finset.empty_union]
  rfl

/-- Counterexample to C5 as stated: a kernel whose only (non-boostable)
instruction covers both the full group- and local-axis index sets
through its tags nonetheless fails axis coverage, because one of its
associated inames still carries the AutoLocal placeholder tag, which
`check_for_unused_hw_axes_in_insns` rejects before comparing the sets. -/
theorem axis_coverage_autolocal_fails :
    (∀ insn ∈ autoLocalKernel.instructions, insn.boostable = false →
      groupAxesUsed autoLocalKernel insn = autoLocalKernel.groupAxes ∧
      localAxesUsed autoLocalKernel insn = autoLocalKernel.localAxes) ∧
    checkForUnusedHwAxesInInsns autoLocalKernel = .error .autoLocalTag := by
  decide

/-- C5 amended: provided no associated iname of a non-boostable
instruction carries the AutoLocal placeholder tag (which fails
immediately), the axis-coverage check succeeds iff for every
non-boostable instruction the group- and local-axis index sets carried
by the tags of its associated inames each equal the full index set
derived from the grid's declared group/local dimensionality (boostable
instructions are exempt), and any failure is a mismatch naming the
offending instruction's id. -/
theorem axis_coverage_amended (k : Kernel)
    (hauto : ∀ insn ∈ k.instructions, insn.boostable = false →
      ∀ i ∈ insn.inames, k.tagOf i ≠ some .autoLocal) :
    (checkForUnusedHwAxesInInsns k = .ok () ↔
      ∀ insn ∈ k.instructions, insn.boostable = false →
        groupAxesUsed k insn = k.groupAxes ∧
        localAxesUsed k insn = k.localAxes) ∧
    (∀ e, checkForUnusedHwAxesInInsns k = .error e →
      ∃ insn ∈ k.instructions, insn.boostable = false ∧
        (e = .unusedGroupAxes insn.id k.groupAxes (groupAxesUsed k insn) ∨
         e = .unusedLocalAxes insn.id k.localAxes (localAxesUsed k insn))) := by
  constructor
  · rw [checkForUnusedHwAxesInInsns, firstFail_ok_iff]
    constructor
    · intro hall insn hmem hb
      have hins := hall insn hmem
      rw [checkForUnusedHwAxesInsn_spec k insn hb (hauto insn hmem hb)] at hins
      split_ifs at hins with h1 h2
      exact ⟨(not_ne_iff.mp h1).symm, (not_ne_iff.mp h2).symm⟩
    · intro hcov insn hmem
      by_cases hb : insn.boostable = true
      · simp [checkForUnusedHwAxesInsn, hb]
      · have hb' : insn.boostable = false := by
          simpa using hb
        obtain ⟨hg, hl⟩ := hcov insn hmem hb'
        rw [checkForUnusedHwAxesInsn_spec k insn hb' (hauto insn hmem hb')]
        simp [hg, hl]
  · intro e herr
    rw [checkForUnusedHwAxesInInsns] at herr
    obtain ⟨insn, hmem, hf⟩ := firstFail_error_mem _ _ _ herr
    by_cases hb : insn.boostable = true
    · simp [checkForUnusedHwAxesInsn, hb] at hf
    · have hb' : insn.boostable = false := by simpa using hb
      rw [checkForUnusedHwAxesInsn_spec k insn hb' (hauto insn hmem hb')] at hf
      split_ifs at hf with h1 h2
      · simp only [Except.error.injEq] at hf
        exact ⟨insn, hmem, hb', Or.inl hf.symm⟩
      · simp only [Except.error.injEq] at hf
        exact ⟨insn, hmem, hb', Or.inr hf.symm⟩

/-- Witness for the amended C5: the fully covered kernel passes axis
coverage. -/
theorem axis_coverage_amended_witness :
    checkForUnusedHwAxesInInsns coveredKernel = .ok () :=
  (axis_coverage_amended coveredKernel (by decide)).1.mpr (by decide)

/-! ## Claim C8: data-dependent parallel bounds -/

theorem firstFail_guard_ok_iff {α : Type} (l : List α) (P : α → Prop)
    [DecidablePred P] (g : α → CheckError) :
    firstFail l (fun x => if P x then .error (g x) else .ok ()) = .ok () ↔
      ∀ x ∈ l, ¬ P x := by
  rw [firstFail_ok_iff]
  constructor
  · intro h x hx
    have hfx := h x hx
    by_contra hp
    rw [if_pos hp] at hfx
    simp at hfx
  · intro h x hx
    rw [if_neg (h x hx)]

theorem firstFail_guard_error {α : Type} (l : List α) (P : α → Prop)
    [DecidablePred P] (g : α → CheckError) (e : CheckError)
    (h : firstFail l (fun x => if P x then .error (g x) else .ok ()) = .error e) :
    ∃ x ∈ l, P x ∧ e = g x := by
  obtain ⟨x, hx, hfx⟩ := firstFail_error_mem _ _ _ h
  by_cases hp : P x
  · rw [if_pos hp] at hfx
    exact ⟨x, hx, hp, (Except.error.inj hfx).symm⟩
  · rw [if_neg hp] at hfx
    simp at hfx

/-- C8: `check_for_data_dependent_parallel_bounds` succeeds iff no
domain with a parallel-tagged iname has a temporary-variable name among
its parameters (so a domain with no parallel-tagged inames, or whose
parameters are not temporary-variable names, passes); any failure names
the domain index, the offending parameter and the domain's
parallel-tagged inames. -/
theorem data_dependent_parallel_bounds_spec (k : Kernel) :
    (checkForDataDependentParallelBounds k = .ok () ↔
      ∀ di ∈ k.domains.enum, (domainParInames k di.2).Nonempty →
        ∀ par ∈ di.2.params, par ∉ k.tempNames) ∧
    (∀ e, checkForDataDependentParallelBounds k = .error e →
      ∃ di ∈ k.domains.enum, ∃ par ∈ di.2.params, par ∈ k.tempNames ∧
        (domainParInames k di.2).Nonempty ∧
        e = .dataDependentBounds di.1 par (domainParInames k di.2)) := by
  constructor
  · rw [checkForDataDependentParallelBounds, firstFail_ok_iff]
    constructor
    · intro h di hdi hne par hpar
      have hd := h di hdi
      rw [if_neg (Finset.nonempty_iff_ne_empty.mp hne)] at hd
      rw [firstFail_guard_ok_iff] at hd
      exact hd par hpar
    · intro h di hdi
      by_cases hp : domainParInames k di.2 = ∅
      · simp only [if_pos hp]
      · simp only [if_neg hp]
        rw [firstFail_guard_ok_iff]
        exact h di hdi (Finset.nonempty_iff_ne_empty.mpr hp)
  · intro e herr
    rw [checkForDataDependentParallelBounds] at herr
    obtain ⟨di, hdi, hf⟩ := firstFail_error_mem _ _ _ herr
    by_cases hp : domainParInames k di.2 = ∅
    · rw [if_pos hp] at hf
      simp at hf
    · rw [if_neg hp] at hf
      obtain ⟨par, hpar, hmem, he⟩ := firstFail_guard_error _ _ _ _ hf
      exact ⟨di, hdi, par, hpar, hmem,
        Finset.nonempty_iff_ne_empty.mpr hp, he⟩

/-- Witness for C8: the kernel with a parallel iname over a
data-dependent (temporary) parameter fails naming domain 0, parameter
`n` and parallel inames `{i}`; the compile-time-constant variant passes. -/
theorem data_dependent_parallel_bounds_spec_witness :
    checkForDataDependentParallelBounds ddOkKernel = .ok () ∧
    checkForDataDependentParallelBounds ddBadKernel =
      .error (.dataDependentBounds 0 "n" {"i"}) := by
  refine ⟨(data_dependent_parallel_bounds_spec ddOkKernel).1.mpr (by decide), ?_⟩
  decide

/-! ## Claim C9: double use of hardware axes -/

theorem doubleUseAux_ok_iff (k : Kernel) (insnId : String)
    (inames : List String) :
    ∀ seen : List String,
      doubleUseAux k insnId inames seen = .ok () ↔
        (keyList k inames).Nodup ∧ ∀ key ∈ keyList k inames, key ∉ seen := by
  induction inames with
  | nil => intro seen; simp [doubleUseAux, keyList]
  | cons i rest ih =>
    intro seen
    cases ht : k.tagOf i with
    | none =>
      simp only [doubleUseAux, ht, keyList, List.filterMap_cons, Option.none_bind]
      exact ih seen
    | some t =>
      cases hk : t.uniqueKey with
      | none =>
        simp only [doubleUseAux, ht, hk, keyList, List.filterMap_cons,
          Option.some_bind]
        exact ih seen
      | some key =>
        simp only [doubleUseAux, ht, hk, keyList, List.filterMap_cons,
          Option.some_bind]
        by_cases hseen : key ∈ seen
        · rw [if_pos hseen]
          constructor
          · intro h; simp at h
          · rintro ⟨-, hall⟩
            exact absurd (hall key (List.mem_cons_self _ _)) (not_not_intro hseen)
        · rw [if_neg hseen, ih (key :: seen)]
          simp only [List.nodup_cons, List.mem_cons, not_or]
          constructor
          · rintro ⟨hnd, hall⟩
            refine ⟨⟨fun hmem => (hall key hmem).1 rfl, hnd⟩, fun x hx => ?_⟩
            rcases hx with rfl | hx
            · exact hseen
            · exact (hall x hx).2
          · rintro ⟨⟨hknot, hnd⟩, hall⟩
            exact ⟨hnd, fun x hx => ⟨fun hxk => hknot (hxk ▸ hx), hall x (Or.inr hx)⟩⟩

theorem doubleUseAux_error (k : Kernel) (insnId : String)
    (inames : List String) :
    ∀ (seen : List String) (e : CheckError),
      doubleUseAux k insnId inames seen = .error e →
      ∃ i ∈ inames, ∃ t, k.tagOf i = some t ∧ e = .doubleUse insnId t := by
  induction inames with
  | nil => intro seen e h; simp [doubleUseAux] at h
  | cons i rest ih =>
    intro seen e h
    cases ht : k.tagOf i with
    | none =>
      simp only [doubleUseAux, ht] at h
      obtain ⟨j, hj, t, htj, he⟩ := ih _ _ h
      exact ⟨j, List.mem_cons_of_mem i hj, t, htj, he⟩
    | some t =>
      cases hk : t.uniqueKey with
      | none =>
        simp only [doubleUseAux, ht, hk] at h
        obtain ⟨j, hj, t2, htj, he⟩ := ih _ _ h
        exact ⟨j, List.mem_cons_of_mem i hj, t2, htj, he⟩
      | some key =>
        simp only [doubleUseAux, ht, hk] at h
        by_cases hseen : key ∈ seen
        · rw [if_pos hseen] at h
          exact ⟨i, List.mem_cons_self i rest, t, ht, (Except.error.inj h).symm⟩
        · rw [if_neg hseen] at h
          obtain ⟨j, hj, t2, htj, he⟩ := ih _ _ h
          exact ⟨j, List.mem_cons_of_mem i hj, t2, htj, he⟩

/-- C9: `check_for_double_use_of_hw_axes` succeeds iff within every
instruction the unique keys carried by the tags of its associated inames
are pairwise distinct (so pairwise-distinct keys never cause a failure
of this check), and equal keys cause a double-use failure naming an
instruction id and one of that instruction's tags. -/
theorem double_use_spec (k : Kernel) :
    (checkForDoubleUseOfHwAxes k = .ok () ↔
      ∀ insn ∈ k.instructions, (keyList k insn.inames.dedup).Nodup) ∧
    (∀ e, checkForDoubleUseOfHwAxes k = .error e →
      ∃ insn ∈ k.instructions, ∃ t, (∃ i ∈ insn.inames, k.tagOf i = some t) ∧
        e = .doubleUse insn.id t) := by
  constructor
  · rw [checkForDoubleUseOfHwAxes, firstFail_ok_iff]
    constructor
    · intro h insn hmem
      exact ((doubleUseAux_ok_iff k insn.id insn.inames.dedup []).mp
        (h insn hmem)).1
    · intro h insn hmem
      exact (doubleUseAux_ok_iff k insn.id insn.inames.dedup []).mpr
        ⟨h insn hmem, by simp⟩
  · intro e herr
    rw [checkForDoubleUseOfHwAxes] at herr
    obtain ⟨insn, hmem, hf⟩ := firstFail_error_mem _ _ _ herr
    obtain ⟨i, hi, t, hti, he⟩ := doubleUseAux_error k insn.id _ _ _ hf
    exact ⟨insn, hmem, t, ⟨i, List.mem_dedup.mp hi, hti⟩, he⟩

/-- Witness for C9: the race-scenario kernel, whose two local axes carry
the distinct keys `l.0` and `l.1`, passes the double-use check; a kernel
binding local axis 0 twice fails naming the instruction and the tag. -/
theorem double_use_spec_witness :
    checkForDoubleUseOfHwAxes (raceKernel tvLocal insnNarrow) = .ok () ∧
    checkForDoubleUseOfHwAxes dupAxisKernel =
      .error (.doubleUse "insn" (.localAxis 0)) := by
  refine ⟨(double_use_spec (raceKernel tvLocal insnNarrow)).1.mpr (by decide), ?_⟩
  decide

/-! ## Claim C6: bounds-checker abstention -/

/-- C6: the bounds checker abstains without error whenever analysis is
infeasible — an instruction whose governing domain has a
temporary-variable name among its parameters is skipped entirely
(regardless of its accesses), and a reference whose subscript the
integer-set collaborator cannot analyze (`get_access_range` abstains,
e.g. on a non-linear subscript) produces no error regardless of the
subscript's actual range. -/
theorem bounds_checker_abstains :
    (∀ (k : Kernel) (insn : Instruction),
      ((k.getInamesDomain insn.inames).params.toFinset ∩ k.tempNames).Nonempty →
      checkBoundsInsn k insn = .ok ()) ∧
    (∀ (k : Kernel) (d : Domain) (insnId agg : String) (idx shape : List Expr),
      lookupShape k agg = some shape →
      idx.length = shape.length →
      getAccessRange d idx = none →
      mapSubscript k d insnId agg idx = .ok ()) := by
  constructor
  · intro k insn hne
    simp only [checkBoundsInsn]
    rw [if_pos hne]
  · intro k d insnId agg idx shape hs hlen hnone
    simp only [mapSubscript, hs]
    by_cases hdeps : depsList idx ⊆ d.vars.toFinset ∧
        depsList shape ⊆ d.vars.toFinset
    · rw [if_neg (not_not_intro hdeps), if_neg (not_not_intro hlen), hnone]
    · rw [if_pos hdeps]

/-- Witness for C6: the instruction over the data-dependent domain of
`skipKernel` is skipped although it reads `A[i]` with extent 1 over
points up to 9, and the non-linear reference `A[i*j]` of
`nonlinearKernel` passes without error although its value at the domain
point `(20, 30)` is 600 against extent 100. -/
theorem bounds_checker_abstains_witness :
    checkBoundsInsn skipKernel
      ⟨"insn", "B", [], .subscript "A" [.var "i"], ["i"], false⟩ = .ok () ∧
    mapSubscript nonlinearKernel domIJ "insn" "A"
      [.mul (.var "i") (.var "j")] = .ok () :=
  ⟨bounds_checker_abstains.1 skipKernel _ (by decide),
   bounds_checker_abstains.2 nonlinearKernel domIJ "insn" "A" _ [.const 100]
     rfl rfl (by decide)⟩

/-! ## Claim C7: subscript arity (corrected) -/

/-- Counterexample to C7 as stated: the instruction of `arityKernel`
reads `A[i, t]` — arity 2 against the declared rank 1 of `A` — yet the
bounds checker succeeds, because the subscript references `t`, a
variable outside the instruction's governing domain, and the
availability guard returns before the arity comparison (check.py lines
243-246 precede lines 248-252). -/
theorem arity_mismatch_not_always_caught :
    checkBounds arityKernel = .ok () ∧
    lookupShape arityKernel "A" = some [.const 10] :=
  ⟨by decide, rfl⟩

/-- C7 amended: for every array-like reference whose referenced entity
has a declared shape, provided the free variables of the subscript and
of the shape all lie in the variables of the instruction's governing
domain, the bounds checker fails with the arity error whenever the
subscript arity differs from the entity's declared rank. -/
theorem arity_mismatch_fails (k : Kernel) (d : Domain) (insnId agg : String)
    (idx shape : List Expr)
    (hs : lookupShape k agg = some shape)
    (hdeps : depsList idx ⊆ d.vars.toFinset ∧
      depsList shape ⊆ d.vars.toFinset)
    (hne : idx.length ≠ shape.length) :
    mapSubscript k d insnId agg idx =
      .error (.subscriptArity agg idx.length shape.length) := by
  simp only [mapSubscript, hs]
  rw [if_neg (not_not_intro hdeps), if_pos hne]

/-- Witness for the amended C7: the in-domain subscript `A[i, i]` of
arity 2 against rank 1 fails with the arity error. -/
theorem arity_mismatch_fails_witness :
    mapSubscript arityKernel ⟨["i"], [], ∅⟩ "insn" "A"
      [.var "i", .var "i"] = .error (.subscriptArity "A" 2 1) :=
  arity_mismatch_fails arityKernel ⟨["i"], [], ∅⟩ "insn" "A"
    [.var "i", .var "i"] [.const 10] rfl ⟨by decide, by decide⟩ (by decide)

/-! ## Claim C10: advisory severity (corrected) -/

theorem foldl_max_sev (msgs : List (Nat × String)) :
    ∀ a : Nat, msgs.foldl (fun m p => max p.1 m) a =
      max a ((msgs.map Prod.fst).foldr max 0) := by
  induction msgs with
  | nil => intro a; simp
  | cons p t ih =>
    intro a
    simp only [List.foldl_cons, List.map_cons, List.foldr_cons, ih]
    rw [Nat.max_comm p.1 a, Nat.max_assoc]

/-- Counterexample to C10 as stated: on a kernel violating none of the
advisory limits, `get_problems` returns `(0, [])`, whose first component
is not in the range 1..5. -/
theorem get_problems_zero_severity :
    getProblems quietKernel [] = (0, []) ∧
    ¬ (1 ≤ (getProblems quietKernel []).1) :=
  ⟨by decide, by decide⟩

/-- C10 amended: for every snapshot, device descriptor and concrete
parameter binding, `get_problems` returns a pair whose first component
equals the maximum of the severities of the returned (severity, message)
list — 0 when the list is empty — and every severity in the list lies in
the range 1..5. -/
theorem get_problems_severity (k : Kernel) (parameters : List (String × Int)) :
    (getProblems k parameters).1 =
      ((getProblems k parameters).2.map Prod.fst).foldr max 0 ∧
    ∀ p ∈ (getProblems k parameters).2, 1 ≤ p.1 ∧ p.1 ≤ 5 := by
  constructor
  · simp only [getProblems]
    rw [foldl_max_sev]
    exact Nat.zero_max _
  · simp only [getProblems]
    intro p hp
    simp only [List.mem_append] at hp
    rcases hp with ((hp | hp) | hp) | hp
    · split at hp <;> simp at hp
      subst hp; simp
    · cases hg : evaluateList parameters k.groupSize with
      | error n =>
        rw [hg] at hp
        simp at hp
        subst hp; simp
      | ok g =>
        rw [hg] at hp
        cases hl : evaluateList parameters k.localSize with
        | error n =>
          rw [hl] at hp
          simp at hp
          subst hp; simp
        | ok llens =>
          rw [hl] at hp
          simp only [List.mem_append] at hp
          rcases hp with hp | hp
          · simp only [List.mem_filterMap] at hp
            obtain ⟨il, _, hil⟩ := hp
            split at hil
            · simp at hil
              subst hil; simp
            · simp at hil
          · split at hp <;> simp at hp
            subst hp; simp
    · split at hp
      · split at hp <;> simp at hp <;> subst hp <;> simp
      · simp at hp
    · split at hp <;> simp at hp
      subst hp; simp

/-- Witness for the amended C10: the advisory severity equation applied
to the quiet kernel. -/
theorem get_problems_severity_witness :
    (getProblems quietKernel []).1 =
      ((getProblems quietKernel []).2.map Prod.fst).foldr max 0 :=
  (get_problems_severity quietKernel []).1

/-! ## Claim C3: implemented-domain equivalence -/

namespace ImplDom

theorem checkImplInsn_ok_iff (K : DKernel) (i : String) (pieces : List ISet) :
    checkImplInsn K i pieces = .ok () ↔
      ∃ insn, idToInsn K i = some insn ∧
        implementedOf K insn pieces = desiredOf K insn := by
  cases hin : idToInsn K i with
  | none => simp [checkImplInsn, hin]
  | some insn =>
    simp only [checkImplInsn, hin]
    split <;> simp_all

theorem checkImplementedDomains_ok_iff (K : DKernel)
    (idoms : List (String × List ISet)) :
    checkImplementedDomains K idoms = .ok true ↔
      ∀ r ∈ idoms, ∃ insn, idToInsn K r.1 = some insn ∧
        implementedOf K insn r.2 = desiredOf K insn := by
  induction idoms with
  | nil => simp [checkImplementedDomains]
  | cons r rest ih =>
    obtain ⟨i, pieces⟩ := r
    rw [checkImplementedDomains]
    cases hc : checkImplInsn K i pieces with
    | error e =>
      constructor
      · intro h; exact absurd h (by simp)
      · intro h
        obtain ⟨insn, hin, heq⟩ := h (i, pieces) (List.mem_cons_self _ _)
        have hok : checkImplInsn K i pieces = .ok () :=
          (checkImplInsn_ok_iff K i pieces).mpr ⟨insn, hin, heq⟩
        rw [hc] at hok
        simp at hok
    | ok u =>
      cases u
      rw [ih]
      constructor
      · intro h r2 hr2
        rcases List.mem_cons.mp hr2 with heq | hmem
        · subst heq
          exact (checkImplInsn_ok_iff K i pieces).mp hc
        · exact h r2 hmem
      · intro h r2 hmem
        exact h r2 (List.mem_cons_of_mem _ hmem)

theorem checkImplementedDomains_mismatch (K : DKernel)
    (idoms : List (String × List ISet)) :
    ∀ (insnId : String) (lines : List String),
      checkImplementedDomains K idoms = .error (.mismatch insnId lines) →
      ∃ r ∈ idoms, r.1 = insnId ∧ ∃ insn, idToInsn K insnId = some insn ∧
        implementedOf K insn r.2 ≠ desiredOf K insn ∧
        lines = sampleLines K insn
          (implementedOf K insn r.2 \ desiredOf K insn)
          (desiredOf K insn \ implementedOf K insn r.2) := by
  induction idoms with
  | nil => intro insnId lines h; simp [checkImplementedDomains] at h
  | cons r rest ih =>
    obtain ⟨i, pieces⟩ := r
    intro insnId lines h
    rw [checkImplementedDomains] at h
    cases hc : checkImplInsn K i pieces with
    | error e =>
      rw [hc] at h
      have he : e = .mismatch insnId lines := Except.error.inj h
      subst he
      rw [checkImplInsn] at hc
      cases hin : idToInsn K i with
      | none =>
        simp only [hin] at hc
        simp at hc
      | some insn =>
        simp only [hin] at hc
        by_cases hne : implementedOf K insn pieces = desiredOf K insn
        · rw [if_pos hne] at hc
          simp at hc
        · rw [if_neg hne] at hc
          have hinj := Except.error.inj hc
          have hieq : i = insnId := (DomainError.mismatch.inj hinj).1
          have hleq : lines = sampleLines K insn
              (implementedOf K insn pieces \ desiredOf K insn)
              (desiredOf K insn \ implementedOf K insn pieces) :=
            ((DomainError.mismatch.inj hinj).2).symm
          subst hieq
          exact ⟨(i, pieces), List.mem_cons_self _ _, rfl, insn, hin, hne, hleq⟩
    | ok u =>
      cases u
      rw [hc] at h
      obtain ⟨r2, hr2, hrest⟩ := ih insnId lines h
      exact ⟨r2, List.mem_cons_of_mem _ hr2, hrest⟩

/-- C3: `check_implemented_domains` succeeds, returning True, iff for
every implemented-domain record the projection of the union of its
pieces intersected with the assumptions onto the instruction's inames
equals the projection of the instruction's domain intersected with the
assumptions — so a redundant extra piece contained in the desired set
still passes — and otherwise it fails with a diagnostic carrying, for
each non-empty side of the two set differences after coalescing, one
sample point formatted as variable=value assignments, omitting an empty
side.  Concretely, desired `0 ≤ i < 10` against implemented `0 ≤ i < 9`
reports the witness `i=9` on the desired-but-not-implemented side and no
witness on the other side, while the redundant implemented union
`(0 ≤ i < 10) ∪ (i = 3)` passes. -/
theorem check_implemented_domains_spec :
    (∀ (K : DKernel) (idoms : List (String × List ISet)),
      checkImplementedDomains K idoms = .ok true ↔
        ∀ r ∈ idoms, ∃ insn, idToInsn K r.1 = some insn ∧
          implementedOf K insn r.2 = desiredOf K insn) ∧
    (∀ (K : DKernel) (idoms : List (String × List ISet))
        (insnId : String) (lines : List String),
      checkImplementedDomains K idoms = .error (.mismatch insnId lines) →
      ∃ r ∈ idoms, r.1 = insnId ∧ ∃ insn, idToInsn K insnId = some insn ∧
        implementedOf K insn r.2 ≠ desiredOf K insn ∧
        lines = sampleLines K insn
          (implementedOf K insn r.2 \ desiredOf K insn)
          (desiredOf K insn \ implementedOf K insn r.2)) ∧
    checkImplementedDomains exK [("insn", [piece9])] =
      .error (.mismatch "insn"
        ["sample point desired, but not implemented: i=9"]) ∧
    checkImplementedDomains exK [("insn", [piece10, piece3])] = .ok true := by
  refine ⟨checkImplementedDomains_ok_iff, ?_, by decide, by decide⟩
  intro K idoms insnId lines h
  exact checkImplementedDomains_mismatch K idoms insnId lines h

/-- Witness for C3: the success criterion applied to the exact
implemented union. -/
theorem check_implemented_domains_spec_witness :
    checkImplementedDomains exK [("insn", [piece10])] = .ok true :=
  (check_implemented_domains_spec.1 exK [("insn", [piece10])]).mpr (by decide)

end ImplDom

end Loopy
